import Mathlib

/-!
Verification of the SpooledFS storage-strategy layer (`sfs_files.hpp`) and
its FUSE dispatcher (`main.cpp`).

Shallow embedding: file contents are `List Nat` (byte sequences), sizes are
`Nat`, and every C++ `assert` or unchecked downcast is an explicit `Fatal`
outcome in an `Except` result, since in the source those paths abort the
process (resp. are undefined behavior) rather than return an error value.
-/

set_option maxHeartbeats 1000000

namespace sfs

/-- A byte, as stored in buffers and file contents. -/
abbrev Byte := Nat

/-- Outcome of a failed operation.  In the C++ source every failure path is an
`assert` (which aborts the process) or an unchecked downcast (undefined
behavior); no operation returns a reportable error value. -/
inductive Fatal where
  | assertFail
  | undefinedBehavior
  deriving DecidableEq, Repr

/-- Model of `IOFile::BufferView`: a read result carrying the bytes, the stored `_size`
field, and the ownership flag `_delete_on_destroy`.  The model carries the
referenced bytes by value. -/
structure BufferView where
  buf : List Byte
  size : Nat
  delete_on_destroy : Bool
  deriving DecidableEq, Repr

/-- Writing `buf` at offset `off` into a byte sequence `c`, zero-filling any
gap between the end of `c` and `off`.  This is the common content semantics
of `MemoryFile::write` (explicit zero fill) and of `DiskFile::write` through
`fseek`/`fwrite` on a POSIX file (the medium's sparse/zero behavior fills the
gap, as the spec notes). -/
def fileWrite (c : List Byte) (off : Nat) (buf : List Byte) : List Byte :=
  let p := c ++ List.replicate (off - c.length) 0
  p.take off ++ buf ++ p.drop (off + buf.length)

/-- Model of `std::string::replace(pos, n, buf, n)` with `n = buf.length`: overwrite
`n` bytes of `s` starting at `pos` (used with `pos + n ≤ s.length`). -/
def strReplace (s : List Byte) (pos : Nat) (buf : List Byte) : List Byte :=
  s.take pos ++ buf ++ s.drop (pos + buf.length)

/-- Model of `MemoryFile`: `_blob` plus the inherited `_fuse_param.attr.st_size`. -/
structure MemoryFile where
  blob : List Byte
  st_size : Nat
  deriving DecidableEq, Repr

/-- Model of `MemoryFile` constructor: `_blob(buf, size)` and `st_size = size`.
A null `buf` (whose `size` is 0 in every well-defined use) is the empty
list. -/
def MemoryFile.construct (buf : List Byte) : MemoryFile :=
  { blob := buf, st_size := buf.length }

/-- Model of `MemoryFile::write`, branch by branch.  Returns the updated file and the
returned byte count (always `size`).  Offsets are the nonnegative values FUSE
passes (the source compares the signed `off` against `size_t` unsigned). -/
def MemoryFile.write (f : MemoryFile) (buf : List Byte) (off : Nat) :
    MemoryFile × Nat :=
  if off < f.blob.length then
    if off + buf.length ≤ f.blob.length then
      -- it should fit inside the given _blob
      ({ f with blob := strReplace f.blob off buf }, buf.length)
    else
      -- only first_chunk_size fits; second_chunk_size extends _blob
      let first_chunk_size := f.blob.length - off
      let second_chunk_size := buf.length - first_chunk_size
      ({ blob := strReplace f.blob off (buf.take first_chunk_size)
                   ++ buf.drop first_chunk_size,
         st_size := f.st_size + second_chunk_size }, buf.length)
  else
    -- zero-fill the gap [blob.length, off), then append buf
    let new_zeros_size := off - f.blob.length
    ({ blob := f.blob ++ List.replicate new_zeros_size 0 ++ buf,
       st_size := f.st_size + (new_zeros_size + buf.length) }, buf.length)

/-- Model of `MemoryFile::read`.  `none` is the `size == -1` sentinel ("whole file from
offset 0", overriding both arguments).  For an explicit size the source
returns the borrowed pointer `_blob.c_str() + off`; the in-range bytes are
`(blob.drop off).take n` (reading past end of content is undefined in the
source and not relied on here). -/
def MemoryFile.read (f : MemoryFile) (size : Option Nat) (off : Nat) :
    BufferView :=
  match size with
  | none => { buf := f.blob, size := f.blob.length, delete_on_destroy := false }
  | some n =>
      { buf := (f.blob.drop off).take n, size := n, delete_on_destroy := false }

/-- Model of `DiskFile`: the fopen handle, the bytes of the backing scratch file, the
inherited `st_size`, the `_current_offset` cursor (which always coincides
with the `FILE` position, so the seek-if-needed logic always writes/reads at
`off`), and a model of the scratch directory: whether the backing file exists
and how many times it has been removed. -/
structure DiskFile where
  fh : Bool
  content : List Byte
  st_size : Nat
  current_offset : Nat
  on_disk : Bool
  removals : Nat
  deriving DecidableEq, Repr

/-- The body of `DiskFile::write` after `assert(nullptr != _fh)`: new-byte
accounting, seek-if-needed, `fwrite` (assumed to succeed, as the source
asserts), size and cursor update. -/
def DiskFile.writeCore (f : DiskFile) (buf : List Byte) (off : Nat) :
    DiskFile × Nat :=
  let file_size := f.st_size
  let new_bytes :=
    if off < file_size then
      if off + buf.length ≤ file_size then 0
      else buf.length - (file_size - off)
    else
      off - file_size + buf.length
  ({ f with content := fileWrite f.content off buf,
            st_size := f.st_size + new_bytes,
            current_offset := off + buf.length }, buf.length)

/-- Model of `DiskFile::write`: aborts on a closed strategy (`assert(nullptr != _fh)`),
otherwise `writeCore`. -/
def DiskFile.write (f : DiskFile) (buf : List Byte) (off : Nat) :
    Except Fatal (DiskFile × Nat) :=
  if f.fh then .ok (f.writeCore buf off) else .error .assertFail

/-- Model of `DiskFile` constructor: choose the scratch path, remove any stale file at
it, `fopen "wb"` (creating an empty file), write the initial buffer at offset
0 when one is given, then `close()`.  The scratch directory starts without
the file, so the initial remove removes nothing.  A null `buf` skips the
write; since writing an empty buffer at offset 0 is the identity on the
state, both cases are the single case `buf = []`. -/
def DiskFile.construct (buf : List Byte) : DiskFile :=
  let f0 : DiskFile :=
    { fh := true, content := [], st_size := 0, current_offset := 0,
      on_disk := true, removals := 0 }
  let f1 := (f0.writeCore buf 0).1
  { f1 with fh := false, current_offset := 0 }

/-- Model of `DiskFile` destructor: `std::filesystem::remove(_disk_path)` (removes the
backing file when it exists). -/
def DiskFile.destroy (f : DiskFile) : DiskFile :=
  { f with on_disk := false,
           removals := f.removals + (if f.on_disk then 1 else 0) }

/-- Model of `DiskFile::open`: asserts that no handle is held, then `fopen "rb+"`
(whose NULL result, if the backing file does not exist, fails the following
assert). -/
def DiskFile.open' (f : DiskFile) : Except Fatal DiskFile :=
  if f.fh then .error .assertFail
  else if f.on_disk then .ok { f with fh := true }
  else .error .assertFail

/-- Model of `DiskFile::close`: asserts that a handle is held, `fclose`, resets the
cursor to 0. -/
def DiskFile.close (f : DiskFile) : Except Fatal DiskFile :=
  if f.fh then .ok { f with fh := false, current_offset := 0 }
  else .error .assertFail

/-- Model of `DiskFile::read`.  `none` is the `size == -1` sentinel (whole file from
offset 0).  `fread` returns the bytes available in `[off, off + size)`; the
source's `assert(0 != nbytes)` aborts when that read is empty. -/
def DiskFile.read (f : DiskFile) (size : Option Nat) (off : Nat) :
    Except Fatal (DiskFile × BufferView) :=
  if f.fh then
    let sz := match size with | none => f.st_size | some n => n
    let o := match size with | none => 0 | some _ => off
    let bytes := (f.content.drop o).take sz
    let nbytes := bytes.length
    if nbytes = 0 then .error .assertFail
    else
      .ok ({ f with current_offset := o + nbytes },
           { buf := bytes, size := nbytes, delete_on_destroy := true })
  else .error .assertFail

/-- The dynamic type of the inner strategy a `SpoolFile` owns (the virtual
dispatch over `IOFile`). -/
inductive Strategy where
  | mem (m : MemoryFile)
  | disk (d : DiskFile)
  deriving DecidableEq, Repr

/-- Model of `get_size` of the inner strategy (its own `st_size` field). -/
def Strategy.get_size : Strategy → Nat
  | .mem m => m.st_size
  | .disk d => d.st_size

/-- The bytes the inner strategy currently holds. -/
def Strategy.content : Strategy → List Byte
  | .mem m => m.blob
  | .disk d => d.content

def Strategy.write : Strategy → List Byte → Nat → Except Fatal (Strategy × Nat)
  | .mem m, buf, off =>
      let r := m.write buf off
      .ok (.mem r.1, r.2)
  | .disk d, buf, off => (d.write buf off).map fun r => (.disk r.1, r.2)

def Strategy.read : Strategy → Option Nat → Nat →
    Except Fatal (Strategy × BufferView)
  | .mem m, size, off => .ok (.mem m, m.read size off)
  | .disk d, size, off => (d.read size off).map fun r => (.disk r.1, r.2)

/-- Model of `IOFile::open` is a no-op for `MemoryFile`; `DiskFile` overrides it. -/
def Strategy.open' : Strategy → Except Fatal Strategy
  | .mem m => .ok (.mem m)
  | .disk d => d.open'.map .disk

/-- Model of `IOFile::close` is a no-op for `MemoryFile`; `DiskFile` overrides it. -/
def Strategy.close : Strategy → Except Fatal Strategy
  | .mem m => .ok (.mem m)
  | .disk d => d.close.map .disk

/-- Model of `SpoolFile`: the threshold field `spool_size`, the owned `_strategy`, the
`_spooled` flag, and the `SpoolFile`'s own inherited
`_fuse_param.attr.st_size` (which `BaseFile::get_size`, being non-virtual,
reports for the spool object itself). -/
structure SpoolFile where
  spool_size : Nat
  strategy : Strategy
  spooled : Bool
  st_size : Nat
  deriving DecidableEq, Repr

/-- Model of `SpoolFile` constructor, with the threshold explicit (the public field
`spool_size` defaults to 1024 and is assignable, as in the source's
commented-out test that sets it to 3). -/
def SpoolFile.construct (spool_size : Nat) (buf : List Byte) : SpoolFile :=
  if buf.length > spool_size then
    { spool_size := spool_size, strategy := .disk (DiskFile.construct buf),
      spooled := true, st_size := buf.length }
  else
    { spool_size := spool_size, strategy := .mem (MemoryFile.construct buf),
      spooled := false, st_size := buf.length }

/-- Model of `SpoolFile::write`: delegate to the inner strategy; then, when not yet
spooled and the inner strategy's size now exceeds the threshold, promote:
read the whole inner content (`read(-1, 0)`), seed a new `DiskFile` with it,
`open()` it, install it and set `_spooled` (the old strategy is deleted).
Note that the spool's own `st_size` field is never updated. -/
def SpoolFile.write (s : SpoolFile) (buf : List Byte) (off : Nat) :
    Except Fatal (SpoolFile × Nat) := do
  let r ← s.strategy.write buf off
  let st1 := r.1
  let nbytes := r.2
  if s.spooled = false ∧ s.spool_size < st1.get_size then
    let rv ← st1.read none 0
    let view := rv.2
    let new_strategy := DiskFile.construct view.buf
    let new_strategy ← new_strategy.open'
    pure ({ s with strategy := .disk new_strategy, spooled := true }, nbytes)
  else
    pure ({ s with strategy := st1 }, nbytes)

/-- Model of `SpoolFile::read` delegates to the inner strategy. -/
def SpoolFile.read (s : SpoolFile) (size : Option Nat) (off : Nat) :
    Except Fatal (SpoolFile × BufferView) :=
  (s.strategy.read size off).map fun r => ({ s with strategy := r.1 }, r.2)

/-- Model of `SpoolFile::open` delegates to the inner strategy. -/
def SpoolFile.open' (s : SpoolFile) : Except Fatal SpoolFile :=
  s.strategy.open'.map fun st => { s with strategy := st }

/-- Model of `SpoolFile::close` delegates to the inner strategy. -/
def SpoolFile.close (s : SpoolFile) : Except Fatal SpoolFile :=
  s.strategy.close.map fun st => { s with strategy := st }

/-- Run a sequence of writes `(buf, off)` on a `SpoolFile`. -/
def SpoolFile.runWrites (s : SpoolFile) :
    List (List Byte × Nat) → Except Fatal SpoolFile
  | [] => .ok s
  | w :: ws =>
      match s.write w.1 w.2 with
      | .error e => .error e
      | .ok r => r.1.runWrites ws

/-- The content a sequence of writes produces, starting from `c`. -/
def writesContent (c : List Byte) (ws : List (List Byte × Nat)) : List Byte :=
  ws.foldl (fun acc w => fileWrite acc w.2 w.1) c

/-- The only protocol error code `main.cpp` ever sends:
`fuse_reply_err(req, ENOENT)`. -/
inductive Errno where
  | ENOENT
  deriving DecidableEq, Repr

/-- A namespace node: a directory (child name maps to child inode) or a
regular file backed by a Spool strategy. -/
inductive Entry where
  | dir (children : List (String × Nat))
  | file (f : SpoolFile)
  deriving DecidableEq, Repr

/-- The replies `main.cpp` produces: `fuse_reply_err`, `fuse_reply_entry`
(its param, of which the size field matters here), `fuse_reply_open`,
`fuse_reply_buf` (the Buffer View's pointer and stored size), and
`fuse_reply_write`. -/
inductive Reply where
  | err (e : Errno)
  | entry (sz : Nat)
  | opened
  | data (v : BufferView)
  | written (n : Nat)
  deriving DecidableEq, Repr

/-- Modelled from the spec: the `SpooledFS` namespace class is referenced by
`main.cpp` (`get_by_inode`, `create_file`) but its definition is not under
`src/`.  Per the spec it maps inode numbers to File Entries and issues
monotonically increasing inode numbers on creation. -/
structure SpooledFS where
  table : List (Nat × Entry)
  next_ino : Nat
  deriving DecidableEq, Repr

/-- Modelled from the spec: `get_by_inode(ino) -> optional File Entry`;
returns none if absent. -/
def SpooledFS.get_by_inode (fs : SpooledFS) (ino : Nat) : Option Entry :=
  (fs.table.find? fun p => p.1 == ino).map fun p => p.2

/-- Replace the entry registered under `ino` (in-place mutation of the owned
File Entry in the C++ source). -/
def SpooledFS.setEntry (fs : SpooledFS) (ino : Nat) (e : Entry) : SpooledFS :=
  { fs with table := fs.table.map fun p => if p.1 == ino then (p.1, e) else p }

/-- Modelled from the spec: the error taxonomy of `create_file`. -/
inductive NsError where
  | NoSuchParent
  | NotADirectory
  | AlreadyExists
  deriving DecidableEq, Repr

/-- Modelled from the spec: `create_file(parent_ino, name, mode)` fails with
`NoSuchParent` if the parent inode is absent, `NotADirectory` if the parent
is not a directory, `AlreadyExists` if the name is taken; on success it
allocates a fresh inode, registers a regular File Entry with an empty Spool
strategy under the parent, and returns the new inode.  The mode does not
affect the modelled behavior. -/
def SpooledFS.create_file (fs : SpooledFS) (parent : Nat) (name : String) :
    SpooledFS × Except NsError Nat :=
  match fs.get_by_inode parent with
  | none => (fs, .error .NoSuchParent)
  | some (.file _) => (fs, .error .NotADirectory)
  | some (.dir children) =>
      if children.any fun c => c.1 == name then (fs, .error .AlreadyExists)
      else
        let ino := fs.next_ino
        let fs1 := fs.setEntry parent (.dir (children ++ [(name, ino)]))
        ({ table := fs1.table ++ [(ino, .file (SpoolFile.construct 1024 []))],
           next_ino := ino + 1 }, .ok ino)

/-- The fuse_entry_param size a reply carries: a `DirFile` is constructed
with size 4096; a regular file's entry is the `SpoolFile` object, whose own
`st_size` field is what its param holds. -/
def Entry.paramSize : Entry → Nat
  | .dir _ => 4096
  | .file f => f.st_size

/-- Model of `sfs_lookup`: resolve the parent inode — absent replies ENOENT; the
unchecked `(DirFile *)` cast makes a regular-file parent undefined behavior —
then find the child by name (`find_file_by_name`, modelled from the spec's
`find_child` since it is not under `src/`), ENOENT when absent, and reply
with the child's entry param. -/
def sfs_lookup (fs : SpooledFS) (parent : Nat) (name : String) :
    Except Fatal (Option Reply × SpooledFS) :=
  match fs.get_by_inode parent with
  | none => .ok (some (.err .ENOENT), fs)
  | some (.file _) => .error .undefinedBehavior
  | some (.dir children) =>
      match children.find? fun c => c.1 == name with
      | none => .ok (some (.err .ENOENT), fs)
      | some c =>
          match fs.get_by_inode c.2 with
          | none => .ok (some (.err .ENOENT), fs)
          | some e => .ok (some (.entry e.paramSize), fs)

/-- Model of `sfs_getattr`: resolve the inode, ENOENT when absent, otherwise reply
with the entry's param. -/
def sfs_getattr (fs : SpooledFS) (ino : Nat) :
    Except Fatal (Option Reply × SpooledFS) :=
  match fs.get_by_inode ino with
  | none => .ok (some (.err .ENOENT), fs)
  | some e => .ok (some (.entry e.paramSize), fs)

/-- Model of `sfs_open`: resolve the inode, ENOENT when absent; otherwise the handler
performs the unchecked `(IOFile *)` cast and calls `open()` with no kind
check — undefined behavior when the entry is a directory — then replies
`fuse_reply_open`. -/
def sfs_open (fs : SpooledFS) (ino : Nat) :
    Except Fatal (Option Reply × SpooledFS) :=
  match fs.get_by_inode ino with
  | none => .ok (some (.err .ENOENT), fs)
  | some (.dir _) => .error .undefinedBehavior
  | some (.file f) =>
      match f.open' with
      | .error e => .error e
      | .ok f1 => .ok (some .opened, fs.setEntry ino (.file f1))

/-- Model of `sfs_release`: resolve the inode, ENOENT when absent; otherwise the
unchecked cast and `close()`.  Note the handler sends no reply on success. -/
def sfs_release (fs : SpooledFS) (ino : Nat) :
    Except Fatal (Option Reply × SpooledFS) :=
  match fs.get_by_inode ino with
  | none => .ok (some (.err .ENOENT), fs)
  | some (.dir _) => .error .undefinedBehavior
  | some (.file f) =>
      match f.close with
      | .error e => .error e
      | .ok f1 => .ok (none, fs.setEntry ino (.file f1))

/-- Model of `sfs_read`: resolve the inode, ENOENT when absent; otherwise the
unchecked cast, `read(size, off)`, and `fuse_reply_buf` with the returned
Buffer View. -/
def sfs_read (fs : SpooledFS) (ino : Nat) (size : Option Nat) (off : Nat) :
    Except Fatal (Option Reply × SpooledFS) :=
  match fs.get_by_inode ino with
  | none => .ok (some (.err .ENOENT), fs)
  | some (.dir _) => .error .undefinedBehavior
  | some (.file f) =>
      match f.read size off with
      | .error e => .error e
      | .ok r => .ok (some (.data r.2), fs.setEntry ino (.file r.1))

/-- Model of `sfs_write`: resolve the inode, ENOENT when absent; otherwise the
unchecked cast, `write(buf, size, off)`, and `fuse_reply_write` with the
byte count. -/
def sfs_write (fs : SpooledFS) (ino : Nat) (buf : List Byte) (off : Nat) :
    Except Fatal (Option Reply × SpooledFS) :=
  match fs.get_by_inode ino with
  | none => .ok (some (.err .ENOENT), fs)
  | some (.dir _) => .error .undefinedBehavior
  | some (.file f) =>
      match f.write buf off with
      | .error e => .error e
      | .ok r => .ok (some (.written r.2), fs.setEntry ino (.file r.1))

/-- Model of `sfs_create`: calls `sfs.create_file(parent, name, mode)` and ignores its
result; no reply of any kind is sent (the `// ???` line in the source). -/
def sfs_create (fs : SpooledFS) (parent : Nat) (name : String) :
    Except Fatal (Option Reply × SpooledFS) :=
  .ok (none, (fs.create_file parent name).1)

/-- The request kinds `main.cpp` registers handlers for. -/
inductive Request where
  | lookup (parent : Nat) (name : String)
  | getattr (ino : Nat)
  | openFile (ino : Nat)
  | read (ino : Nat) (size : Option Nat) (off : Nat)
  | write (ino : Nat) (buf : List Byte) (off : Nat)
  | release (ino : Nat)
  | create (parent : Nat) (name : String)
  deriving DecidableEq, Repr

/-- The dispatcher: one inbound request to one handler of `main.cpp`. -/
def SpooledFS.handle (fs : SpooledFS) :
    Request → Except Fatal (Option Reply × SpooledFS)
  | .lookup p n => sfs_lookup fs p n
  | .getattr i => sfs_getattr fs i
  | .openFile i => sfs_open fs i
  | .read i sz off => sfs_read fs i sz off
  | .write i b off => sfs_write fs i b off
  | .release i => sfs_release fs i
  | .create p n => sfs_create fs p n

/-! ## Basic lemmas about contents and writes -/

theorem fileWrite_length (c : List Byte) (off : Nat) (buf : List Byte) :
    (fileWrite c off buf).length = max c.length (off + buf.length) := by
  simp only [fileWrite, List.length_append, List.length_take, List.length_drop,
    List.length_replicate]
  omega

theorem fileWrite_nil (off : Nat) (buf : List Byte) :
    fileWrite [] off buf = List.replicate off 0 ++ buf := by
  simp [fileWrite]

theorem fileWrite_zero_nil (buf : List Byte) : fileWrite [] 0 buf = buf := by
  simp [fileWrite]

/-- A write at or past the end of the content appends a zero-filled gap and
then the buffer. -/
theorem fileWrite_append (c : List Byte) (off : Nat) (buf : List Byte)
    (h : c.length ≤ off) :
    fileWrite c off buf = c ++ List.replicate (off - c.length) 0 ++ buf := by
  have hlen : (c ++ List.replicate (off - c.length) 0).length = off := by
    simp [List.length_append, List.length_replicate]; omega
  simp only [fileWrite]
  rw [List.take_of_length_le (le_of_eq hlen), List.drop_eq_nil_of_le (by omega),
    List.append_nil]

/-- The content part of `MemoryFile::write` is exactly `fileWrite`. -/
theorem MemoryFile.write_blob (f : MemoryFile) (buf : List Byte) (off : Nat) :
    ((f.write buf off).1).blob = fileWrite f.blob off buf := by
  unfold MemoryFile.write
  by_cases h1 : off < f.blob.length
  · have hz : off - f.blob.length = 0 := by omega
    by_cases h2 : off + buf.length ≤ f.blob.length
    · simp [h1, h2, strReplace, fileWrite, hz]
    · have htk : (buf.take (f.blob.length - off)).length = f.blob.length - off := by
        simp [List.length_take]; omega
      simp only [h1, h2, if_true, if_false, if_pos, if_neg, not_false_iff]
      simp [strReplace, fileWrite, hz, htk, List.append_assoc]
      have e1 : off + (f.blob.length - off) = f.blob.length := by omega
      rw [e1, List.drop_length, List.nil_append,
        List.drop_eq_nil_of_le (show f.blob.length ≤ off + buf.length by omega),
        List.append_nil, List.take_append_drop]
  · have h1' : f.blob.length ≤ off := by omega
    simp [h1, fileWrite_append _ _ _ h1', List.append_assoc]

/-- `MemoryFile::write` returns the requested size. -/
theorem MemoryFile.write_ret (f : MemoryFile) (buf : List Byte) (off : Nat) :
    (f.write buf off).2 = buf.length := by
  unfold MemoryFile.write
  by_cases h1 : off < f.blob.length
  · by_cases h2 : off + buf.length ≤ f.blob.length <;> simp [h1, h2]
  · simp [h1]

/-- `MemoryFile::write` keeps `st_size` equal to the blob length. -/
theorem MemoryFile.write_st_size (f : MemoryFile) (buf : List Byte) (off : Nat)
    (h : f.st_size = f.blob.length) :
    ((f.write buf off).1).st_size = (fileWrite f.blob off buf).length := by
  rw [fileWrite_length]
  unfold MemoryFile.write
  by_cases h1 : off < f.blob.length
  · by_cases h2 : off + buf.length ≤ f.blob.length
    · simp [h1, h2, strReplace]
      omega
    · simp [h1, h2, strReplace]
      omega
  · simp [h1]
    omega

/-- The content part of `DiskFile::writeCore` is exactly `fileWrite`, and the
other fields update as the source says. -/
theorem DiskFile.writeCore_spec (f : DiskFile) (buf : List Byte) (off : Nat) :
    (f.writeCore buf off).1.content = fileWrite f.content off buf ∧
    (f.writeCore buf off).1.current_offset = off + buf.length ∧
    (f.writeCore buf off).1.fh = f.fh ∧
    (f.writeCore buf off).1.on_disk = f.on_disk ∧
    (f.writeCore buf off).1.removals = f.removals ∧
    (f.writeCore buf off).2 = buf.length := by
  simp [DiskFile.writeCore]

/-- New-byte accounting of `DiskFile::writeCore`: the new size is
`max old (off + size)`. -/
theorem DiskFile.writeCore_st_size (f : DiskFile) (buf : List Byte) (off : Nat) :
    (f.writeCore buf off).1.st_size = max f.st_size (off + buf.length) := by
  simp only [DiskFile.writeCore]
  by_cases h1 : off < f.st_size
  · by_cases h2 : off + buf.length ≤ f.st_size
    · simp [h1, h2]
    · simp [h1, h2]
      omega
  · simp [h1]
    omega

/-- The state `DiskFile`'s constructor produces: closed, seeded with the
initial bytes, sizes agreeing, backing file present, never yet removed. -/
theorem DiskFile.construct_spec (buf : List Byte) :
    DiskFile.construct buf =
      { fh := false, content := buf, st_size := buf.length,
        current_offset := 0, on_disk := true, removals := 0 } := by
  simp only [DiskFile.construct, DiskFile.writeCore]
  simp [fileWrite_zero_nil]

/-- Opening a freshly constructed `DiskFile` succeeds and yields the open
strategy seeded with the initial bytes (the promotion path of
`SpoolFile::write`). -/
theorem DiskFile.open_construct (buf : List Byte) :
    (DiskFile.construct buf).open' =
      .ok { fh := true, content := buf, st_size := buf.length,
            current_offset := 0, on_disk := true, removals := 0 } := by
  rw [DiskFile.construct_spec]
  rfl

/-! ## The Spool promotion invariant -/

/-- Invariant of a Spool strategy that started on the Memory backend and has
absorbed writes producing content `c`: the inner state agrees with `c`, the
spooled flag and the Disk backend appear exactly when `c` is longer than the
threshold, and a promoted Disk strategy is open with its backing file
present. -/
def SpoolGood (T : Nat) (c : List Byte) (s : SpoolFile) : Prop :=
  s.spool_size = T ∧
  match s.strategy with
  | .mem m => s.spooled = false ∧ m.blob = c ∧ m.st_size = c.length ∧
      c.length ≤ T
  | .disk d => s.spooled = true ∧ d.content = c ∧ d.st_size = c.length ∧
      d.fh = true ∧ d.on_disk = true ∧ T < c.length

/-- Reduction of `SpoolFile::write` when the inner strategy is the Memory
one: delegate, then promote exactly when not spooled and the new size
exceeds the threshold. -/
theorem SpoolFile.write_mem (s : SpoolFile) (m : MemoryFile) (buf : List Byte)
    (off : Nat) (hst : s.strategy = .mem m) :
    s.write buf off =
      .ok (if s.spooled = false ∧ s.spool_size < (m.write buf off).1.st_size then
        ({ s with
            strategy := .disk
              { fh := true, content := (m.write buf off).1.blob,
                st_size := (m.write buf off).1.blob.length,
                current_offset := 0, on_disk := true, removals := 0 },
            spooled := true }, (m.write buf off).2)
      else
        ({ s with strategy := .mem (m.write buf off).1 }, (m.write buf off).2)) := by
  unfold SpoolFile.write
  rw [hst]
  by_cases hp : s.spooled = false ∧ s.spool_size < (m.write buf off).1.st_size
  · simp [Strategy.write, Strategy.get_size, Strategy.read, MemoryFile.read, hp,
      Bind.bind, Except.bind, DiskFile.open_construct, pure, Except.pure]
  · simp [Strategy.write, Strategy.get_size, hp, Bind.bind, Except.bind, pure,
      Except.pure]

/-- Reduction of `SpoolFile::write` when the inner strategy is an open Disk
one and the file is already spooled: a plain delegated write. -/
theorem SpoolFile.write_disk (s : SpoolFile) (d : DiskFile) (buf : List Byte)
    (off : Nat) (hst : s.strategy = .disk d) (hsp : s.spooled = true)
    (hfh : d.fh = true) :
    s.write buf off =
      .ok ({ s with strategy := .disk (d.writeCore buf off).1 },
           (d.writeCore buf off).2) := by
  unfold SpoolFile.write
  rw [hst]
  simp [Strategy.write, Strategy.get_size, DiskFile.write, hfh, hsp, Bind.bind,
    Except.bind, Except.map, pure, Except.pure]

/-- One write preserves the Spool invariant, updating the content by
`fileWrite` and returning the requested size. -/
theorem SpoolFile.write_good {T : Nat} {c : List Byte} {s : SpoolFile}
    (h : SpoolGood T c s) (buf : List Byte) (off : Nat) :
    ∃ s', s.write buf off = .ok (s', buf.length) ∧
      SpoolGood T (fileWrite c off buf) s' := by
  obtain ⟨hT, hm⟩ := h
  cases hst : s.strategy with
  | mem m =>
      rw [hst] at hm
      obtain ⟨hsp, hblob, hsize, hle⟩ := hm
      have hw := MemoryFile.write_blob m buf off
      have hws := MemoryFile.write_st_size m buf off (by rw [hsize, hblob])
      have hwr := MemoryFile.write_ret m buf off
      rw [SpoolFile.write_mem s m buf off hst, hwr, hws, hblob]
      by_cases hp : T < (fileWrite c off buf).length
      · rw [if_pos ⟨hsp, by rw [hT]; exact hp⟩]
        refine ⟨_, rfl, hT, rfl, ?_, ?_, rfl, rfl, hp⟩
        · rw [hw, hblob]
        · rw [hw, hblob]
      · rw [if_neg (by rw [hT]; exact fun hc => hp hc.2)]
        refine ⟨_, rfl, hT, hsp, ?_, ?_, Nat.le_of_not_lt hp⟩
        · rw [hw, hblob]
        · rw [hws, hblob]
  | disk d =>
      rw [hst] at hm
      obtain ⟨hsp, hc, hsz, hfh, hod, hTl⟩ := hm
      rw [SpoolFile.write_disk s d buf off hst hsp hfh]
      obtain ⟨e1, e2, e3, e4, e5, e6⟩ := DiskFile.writeCore_spec d buf off
      have e7 := DiskFile.writeCore_st_size d buf off
      rw [e6]
      refine ⟨_, rfl, hT, ?_⟩
      refine ⟨hsp, by rw [e1, hc], ?_, by rw [e3, hfh], by rw [e4, hod], ?_⟩
      · rw [e7, hsz, fileWrite_length]
      · rw [fileWrite_length]
        omega

/-- A whole write sequence preserves the Spool invariant. -/
theorem SpoolFile.runWrites_good {T : Nat} (ws : List (List Byte × Nat))
    {c : List Byte} {s : SpoolFile} (h : SpoolGood T c s) :
    ∃ s', s.runWrites ws = .ok s' ∧ SpoolGood T (writesContent c ws) s' := by
  induction ws generalizing s c with
  | nil => exact ⟨s, rfl, h⟩
  | cons w ws ih =>
      obtain ⟨s1, hw, hg⟩ := SpoolFile.write_good h w.1 w.2
      obtain ⟨s', hrun, hg'⟩ := ih hg
      refine ⟨s', ?_, ?_⟩
      · simp [SpoolFile.runWrites, hw, hrun]
      · simpa [writesContent] using hg'

/-- The constructor establishes the invariant when the initial size does not
exceed the threshold (the Memory phase). -/
theorem SpoolFile.construct_good (T : Nat) (buf0 : List Byte)
    (h : buf0.length ≤ T) : SpoolGood T buf0 (SpoolFile.construct T buf0) := by
  have hng : ¬ buf0.length > T := by omega
  unfold SpoolFile.construct SpoolGood
  simp [hng, MemoryFile.construct, h]

/-! ## Read-all and content lemmas -/

/-- Precondition under which a read-all cannot hit the source's asserts: a
Memory strategy always; a Disk strategy only when open, with its size field
agreeing with the content (as in every reachable state) and at least one
byte present. -/
def Strategy.readableAll : Strategy → Prop
  | .mem _ => True
  | .disk d => d.fh = true ∧ d.st_size = d.content.length ∧ d.content ≠ []

/-- A read with the ALL sentinel returns a view of exactly the whole
content, whatever the offset argument. -/
theorem Strategy.read_all_spec (st : Strategy) (off : Nat)
    (h : st.readableAll) :
    ∃ st' v, st.read none off = .ok (st', v) ∧ v.buf = st.content ∧
      v.size = st.content.length := by
  cases st with
  | mem m => exact ⟨_, _, rfl, rfl, rfl⟩
  | disk d =>
      obtain ⟨hfh, hsz, hne⟩ := h
      have hbytes : (d.content.drop 0).take d.st_size = d.content := by
        rw [List.drop_zero, hsz, List.take_length]
      have hlen : ¬ d.content.length = 0 := by
        simpa [List.length_eq_zero] using hne
      simp only [Strategy.read, DiskFile.read, hfh, if_true, hbytes, hlen,
        if_false, Except.map, Strategy.content]
      exact ⟨_, _, rfl, rfl, rfl⟩

/-- The Spool read delegates, so the ALL-sentinel read behaves the same. -/
theorem SpoolFile.read_all_delegate (s : SpoolFile) (off : Nat)
    (h : s.strategy.readableAll) :
    ∃ s' v, s.read none off = .ok (s', v) ∧ v.buf = s.strategy.content ∧
      v.size = s.strategy.content.length := by
  obtain ⟨st', v, he, hb, hs⟩ := Strategy.read_all_spec s.strategy off h
  refine ⟨{ s with strategy := st' }, v, ?_, hb, hs⟩
  simp [SpoolFile.read, he, Except.map]

/-- Every state satisfying the Spool invariant can absorb an ALL-read, and
its inner content is the invariant's content. -/
theorem SpoolGood.readable {T : Nat} {c : List Byte} {s : SpoolFile}
    (h : SpoolGood T c s) :
    s.strategy.readableAll ∧ s.strategy.content = c := by
  obtain ⟨hT, hm⟩ := h
  cases hst : s.strategy with
  | mem m =>
      rw [hst] at hm
      exact ⟨trivial, hm.2.1⟩
  | disk d =>
      rw [hst] at hm
      obtain ⟨hsp, hc, hsz, hfh, hod, hTl⟩ := hm
      refine ⟨⟨hfh, by rw [hsz, hc], ?_⟩, hc⟩
      rw [hc]
      exact List.ne_nil_of_length_pos (by omega)

/-- The spooled flag and the open Disk backend appear exactly when the
content exceeds the threshold, for every state satisfying the invariant. -/
theorem SpoolGood.flags {T : Nat} {c : List Byte} {s : SpoolFile}
    (h : SpoolGood T c s) :
    (s.spooled = true ↔ T < c.length) ∧
    ((∃ d, s.strategy = .disk d ∧ d.fh = true) ↔ s.spooled = true) := by
  obtain ⟨hT, hm⟩ := h
  cases hst : s.strategy with
  | mem m =>
      rw [hst] at hm
      obtain ⟨hsp, _, _, hle⟩ := hm
      constructor
      · rw [hsp]
        simp
        omega
      · rw [hsp]
        simp
  | disk d =>
      rw [hst] at hm
      obtain ⟨hsp, hc, hsz, hfh, hod, hTl⟩ := hm
      constructor
      · rw [hsp]
        simp [hTl]
      · rw [hsp]
        simp [hfh]

theorem writesContent_append (c : List Byte) (l1 l2 : List (List Byte × Nat)) :
    writesContent c (l1 ++ l2) = writesContent (writesContent c l1) l2 := by
  simp [writesContent, List.foldl_append]

theorem writesContent_length_le (c : List Byte) (ws : List (List Byte × Nat)) :
    c.length ≤ (writesContent c ws).length := by
  induction ws generalizing c with
  | nil => simp [writesContent]
  | cons w ws ih =>
      have h1 : c.length ≤ (fileWrite c w.2 w.1).length := by
        rw [fileWrite_length]
        omega
      exact le_trans h1 (ih (fileWrite c w.2 w.1))

/-- Content length is monotone along prefixes of a write sequence: writes
never shrink a file. -/
theorem writesContent_take_mono (c : List Byte) (ws : List (List Byte × Nat))
    (k j : Nat) (hkj : k ≤ j) :
    (writesContent c (ws.take k)).length ≤
      (writesContent c (ws.take j)).length := by
  have h1 : ws.take j = ws.take k ++ (ws.drop k).take (j - k) := by
    rw [← List.take_add]
    congr 1
    omega
  rw [h1, writesContent_append]
  exact writesContent_length_le _ _

/-! ## Claims -/

/-- C1 (the code contradicts the claim): after the first size-growing write
on a freshly constructed empty Spool strategy, the size reported by the
Spool strategy itself (the non-virtual `BaseFile::get_size` reads the
`SpoolFile` object's own `st_size`, which `SpoolFile::write` never updates)
is still 0, while its current inner Memory strategy reports size 1. -/
theorem C1_spool_size_stale :
    ((SpoolFile.construct 1024 []).write [65] 0).map
        (fun r => (r.1.st_size, r.1.strategy.get_size)) = .ok (0, 1) := rfl

/-- C2: a Spool strategy constructed within the threshold starts on Memory;
any sequence of writes succeeds; afterwards the inner content is exactly the
bytes written so far (zero-filled gaps included); the spooled flag and an
open Disk backend are present exactly when the content exceeds the
threshold — and likewise at every prefix of the sequence, while content
length is monotone along prefixes, so the first threshold-crossing write
promotes, promotion happens exactly once, and the backend never reverts to
Memory; and once promoted, `read(ALL, 0)` returns exactly those bytes. -/
theorem C2_spool_promotion (T : Nat) (buf0 : List Byte)
    (ws : List (List Byte × Nat)) (h : buf0.length ≤ T) :
    ∃ s', (SpoolFile.construct T buf0).runWrites ws = .ok s' ∧
      s'.strategy.content = writesContent buf0 ws ∧
      (s'.spooled = true ↔ T < (writesContent buf0 ws).length) ∧
      ((∃ d, s'.strategy = .disk d ∧ d.fh = true) ↔ s'.spooled = true) ∧
      (∀ k j : Nat, k ≤ j →
        (writesContent buf0 (ws.take k)).length ≤
          (writesContent buf0 (ws.take j)).length) ∧
      (∀ k : Nat, ∃ sk,
        (SpoolFile.construct T buf0).runWrites (ws.take k) = .ok sk ∧
        (sk.spooled = true ↔ T < (writesContent buf0 (ws.take k)).length) ∧
        ((∃ d, sk.strategy = .disk d ∧ d.fh = true) ↔ sk.spooled = true)) ∧
      (s'.spooled = true →
        ∃ s2 v, s'.read none 0 = .ok (s2, v) ∧
          v.buf = writesContent buf0 ws ∧
          v.size = (writesContent buf0 ws).length) := by
  have hg0 := SpoolFile.construct_good T buf0 h
  obtain ⟨s', hrun, hg⟩ := SpoolFile.runWrites_good ws hg0
  obtain ⟨hiff1, hiff2⟩ := SpoolGood.flags hg
  obtain ⟨hra, hcont⟩ := SpoolGood.readable hg
  refine ⟨s', hrun, hcont, hiff1, hiff2, ?_, ?_, ?_⟩
  · intro k j hkj
    exact writesContent_take_mono _ _ _ _ hkj
  · intro k
    obtain ⟨sk, hrunk, hgk⟩ := SpoolFile.runWrites_good (ws.take k) hg0
    obtain ⟨h1, h2⟩ := SpoolGood.flags hgk
    exact ⟨sk, hrunk, h1, h2⟩
  · intro _
    obtain ⟨s2, v, he, hb, hsv⟩ := SpoolFile.read_all_delegate s' 0 hra
    exact ⟨s2, v, he, by rw [hb, hcont], by rw [hsv, hcont]⟩

/-- Witness for C2: threshold 3, empty start, two writes (the second crosses
the threshold, covering the promotion path). -/
theorem C2_spool_promotion_witness :
    ([] : List Byte).length ≤ 3 ∧
    (∃ s', (SpoolFile.construct 3 []).runWrites [([1, 2], 0), ([3, 4], 2)] = .ok s' ∧
      s'.strategy.content = writesContent [] [([1, 2], 0), ([3, 4], 2)] ∧
      (s'.spooled = true ↔
        3 < (writesContent [] [([1, 2], 0), ([3, 4], 2)]).length) ∧
      ((∃ d, s'.strategy = .disk d ∧ d.fh = true) ↔ s'.spooled = true) ∧
      (∀ k j : Nat, k ≤ j →
        (writesContent [] ([([1, 2], 0), ([3, 4], 2)].take k)).length ≤
          (writesContent [] ([([1, 2], 0), ([3, 4], 2)].take j)).length) ∧
      (∀ k : Nat, ∃ sk,
        (SpoolFile.construct 3 []).runWrites
            ([([1, 2], 0), ([3, 4], 2)].take k) = .ok sk ∧
        (sk.spooled = true ↔
          3 < (writesContent [] ([([1, 2], 0), ([3, 4], 2)].take k)).length) ∧
        ((∃ d, sk.strategy = .disk d ∧ d.fh = true) ↔ sk.spooled = true)) ∧
      (s'.spooled = true →
        ∃ s2 v, s'.read none 0 = .ok (s2, v) ∧
          v.buf = writesContent [] [([1, 2], 0), ([3, 4], 2)] ∧
          v.size = (writesContent [] [([1, 2], 0), ([3, 4], 2)]).length)) :=
  ⟨by decide, C2_spool_promotion 3 [] [([1, 2], 0), ([3, 4], 2)] (by decide)⟩

/-- Construct a Disk strategy, open it (as the dispatcher would before any
I/O), then read with the ALL sentinel at offset 0. -/
def diskOpenReadAll (buf : List Byte) : Except Fatal (DiskFile × BufferView) :=
  (DiskFile.construct buf).open'.bind fun d => d.read none 0

/-- C3 counterexample: on an open Disk strategy whose content has length
N = 0, the ALL-sentinel read does not return a 0-byte view — it hits the
source's `assert(0 != nbytes)` and aborts. -/
theorem C3_empty_disk_read_aborts :
    diskOpenReadAll [] = .error .assertFail := rfl

/-- C3 (amended): for every Memory strategy, and for every open Disk
strategy whose size agrees with its content and whose content length N is at
least 1, a read with the ALL sentinel and any offset returns a Buffer View
of exactly N bytes equal to the whole content, without aborting; a Spool
strategy behaves the same by delegation.  (An open Disk strategy with N = 0
instead aborts on the zero-byte-read assertion.) -/
theorem C3_read_all_sentinel (st : Strategy) (off : Nat) (s : SpoolFile)
    (hst : s.strategy = st) (h : st.readableAll) :
    (∃ st' v, st.read none off = .ok (st', v) ∧ v.buf = st.content ∧
      v.size = st.content.length) ∧
    (∃ s' v, s.read none off = .ok (s', v) ∧ v.buf = st.content ∧
      v.size = st.content.length) := by
  refine ⟨Strategy.read_all_spec st off h, ?_⟩
  subst hst
  exact SpoolFile.read_all_delegate s off h

/-- Witness for C3 (amended): a one-byte Memory strategy wrapped in a Spool
strategy, read with the ALL sentinel at offset 5. -/
theorem C3_read_all_sentinel_witness :
    (∃ st' v,
      (Strategy.mem { blob := [7], st_size := 1 }).read none 5 = .ok (st', v) ∧
      v.buf = (Strategy.mem { blob := [7], st_size := 1 }).content ∧
      v.size = (Strategy.mem { blob := [7], st_size := 1 }).content.length) ∧
    (∃ s' v,
      ({ spool_size := 1024, strategy := .mem { blob := [7], st_size := 1 },
         spooled := false, st_size := 1 } : SpoolFile).read none 5 =
          .ok (s', v) ∧
      v.buf = (Strategy.mem { blob := [7], st_size := 1 }).content ∧
      v.size = (Strategy.mem { blob := [7], st_size := 1 }).content.length) :=
  C3_read_all_sentinel (.mem { blob := [7], st_size := 1 }) 5
    { spool_size := 1024, strategy := .mem { blob := [7], st_size := 1 },
      spooled := false, st_size := 1 } rfl trivial

/-- C4: writing the two bytes "AB" (65, 66) at offset 5 into an empty
Memory-backed file and into an empty opened Disk-backed file yields size 7,
zero bytes on [0, 5) and "AB" on [5, 7); and in general a Memory write whose
offset is at or beyond the current length zero-fills the gap, appends the
buffer, and returns the requested size. -/
theorem C4_gap_zero_fill :
    ((MemoryFile.construct []).write [65, 66] 5 =
      ({ blob := [0, 0, 0, 0, 0, 65, 66], st_size := 7 }, 2)) ∧
    ((DiskFile.construct []).open'.bind (fun d => d.write [65, 66] 5) =
      .ok ({ fh := true, content := [0, 0, 0, 0, 0, 65, 66], st_size := 7,
             current_offset := 7, on_disk := true, removals := 0 }, 2)) ∧
    (∀ (m : MemoryFile) (buf : List Byte) (off : Nat),
      m.blob.length ≤ off → m.st_size = m.blob.length →
        (m.write buf off).1.blob =
          m.blob ++ List.replicate (off - m.blob.length) 0 ++ buf ∧
        (m.write buf off).1.st_size = off + buf.length ∧
        (m.write buf off).2 = buf.length) := by
  refine ⟨rfl, rfl, ?_⟩
  intro m buf off h1 h2
  refine ⟨?_, ?_, MemoryFile.write_ret m buf off⟩
  · rw [MemoryFile.write_blob m buf off, fileWrite_append _ _ _ h1]
  · rw [MemoryFile.write_st_size m buf off h2, fileWrite_length]
    omega

/-- Witness for C4's general clause: a two-byte blob written at offset 4. -/
theorem C4_gap_zero_fill_witness :
    ({ blob := [9, 9], st_size := 2 } : MemoryFile).blob.length ≤ 4 ∧
    (({ blob := [9, 9], st_size := 2 } : MemoryFile).write [65] 4).1.blob =
      [9, 9] ++ List.replicate (4 - 2) 0 ++ [65] ∧
    (({ blob := [9, 9], st_size := 2 } : MemoryFile).write [65] 4).1.st_size =
      4 + 1 ∧
    (({ blob := [9, 9], st_size := 2 } : MemoryFile).write [65] 4).2 = 1 :=
  ⟨by decide,
    C4_gap_zero_fill.2.2 { blob := [9, 9], st_size := 2 } [65] 4
      (by decide) rfl⟩

/-- C5: on an open Disk strategy of size S, a write of `size` bytes at
`offset` returns `size`, leaves the reported size unchanged when the written
range lies inside [0, S), otherwise grows it by exactly
(offset + size) - S — equivalently the new size is max(S, offset + size) —
and sets the seek cursor to offset + size. -/
theorem C5_disk_write_accounting (d : DiskFile) (buf : List Byte) (off : Nat)
    (hfh : d.fh = true) :
    ∃ d' n, d.write buf off = .ok (d', n) ∧ n = buf.length ∧
      d'.st_size = max d.st_size (off + buf.length) ∧
      (off < d.st_size ∧ off + buf.length ≤ d.st_size →
        d'.st_size = d.st_size) ∧
      (¬(off < d.st_size ∧ off + buf.length ≤ d.st_size) →
        d'.st_size = d.st_size + (off + buf.length - d.st_size)) ∧
      d'.current_offset = off + buf.length := by
  obtain ⟨e1, e2, e3, e4, e5, e6⟩ := DiskFile.writeCore_spec d buf off
  have e7 := DiskFile.writeCore_st_size d buf off
  refine ⟨(d.writeCore buf off).1, (d.writeCore buf off).2, ?_, e6, e7,
    ?_, ?_, e2⟩
  · simp [DiskFile.write, hfh]
  · rw [e7]
    omega
  · rw [e7]
    omega

/-- C6 counterexample: calling open on an already-open Disk strategy, and
close on a closed one, do not return reportable AlreadyOpen/NotOpen error
results — both hit assertions and abort the process (no error value exists
in the code). -/
theorem C6_out_of_order_aborts :
    ((DiskFile.construct []).open'.bind DiskFile.open' =
      .error .assertFail) ∧
    ((DiskFile.construct []).close = .error .assertFail) := ⟨rfl, rfl⟩

/-- C6 (amended): out-of-order open/close on a Disk strategy is detected,
but by a fatal assertion (a process abort), not by a reportable
AlreadyOpen/NotOpen error result; in-order open (with the backing file
present) and close succeed, and the strategy holds at most one open handle
at a time — a single handle slot that open fills and close empties. -/
theorem C6_open_close_states (d : DiskFile) :
    (d.fh = true → d.open' = .error .assertFail) ∧
    (d.fh = false → d.close = .error .assertFail) ∧
    (d.fh = false → d.on_disk = true → d.open' = .ok { d with fh := true }) ∧
    (d.fh = true → d.close = .ok { d with fh := false, current_offset := 0 }) := by
  refine ⟨fun h => ?_, fun h => ?_, fun h h2 => ?_, fun h => ?_⟩
  · simp [DiskFile.open', h]
  · simp [DiskFile.close, h]
  · simp [DiskFile.open', h, h2]
  · simp [DiskFile.close, h]

/-- Witness for C6 (amended) at a concrete closed Disk strategy. -/
theorem C6_open_close_states_witness :
    (({ fh := false, content := [], st_size := 0, current_offset := 0,
        on_disk := true, removals := 0 } : DiskFile).fh = true →
      ({ fh := false, content := [], st_size := 0, current_offset := 0,
         on_disk := true, removals := 0 } : DiskFile).open' =
        .error .assertFail) ∧
    (({ fh := false, content := [], st_size := 0, current_offset := 0,
        on_disk := true, removals := 0 } : DiskFile).fh = false →
      ({ fh := false, content := [], st_size := 0, current_offset := 0,
         on_disk := true, removals := 0 } : DiskFile).close =
        .error .assertFail) ∧
    (({ fh := false, content := [], st_size := 0, current_offset := 0,
        on_disk := true, removals := 0 } : DiskFile).fh = false →
      ({ fh := false, content := [], st_size := 0, current_offset := 0,
         on_disk := true, removals := 0 } : DiskFile).on_disk = true →
      ({ fh := false, content := [], st_size := 0, current_offset := 0,
         on_disk := true, removals := 0 } : DiskFile).open' =
        .ok { fh := true, content := [], st_size := 0, current_offset := 0,
              on_disk := true, removals := 0 }) ∧
    (({ fh := false, content := [], st_size := 0, current_offset := 0,
        on_disk := true, removals := 0 } : DiskFile).fh = true →
      ({ fh := false, content := [], st_size := 0, current_offset := 0,
         on_disk := true, removals := 0 } : DiskFile).close =
        .ok { fh := false, content := [], st_size := 0, current_offset := 0,
              on_disk := true, removals := 0 }) :=
  C6_open_close_states
    { fh := false, content := [], st_size := 0, current_offset := 0,
      on_disk := true, removals := 0 }

/-- C7 counterexample: a create request whose parent inode is absent leaves
the namespace unchanged but the handler sends no reply at all (the result of
create_file is ignored) — in particular not the NoSuchEntry (ENOENT) reply
the claim requires of every request kind. -/
theorem C7_create_absent_no_reply :
    SpooledFS.handle { table := [], next_ino := 2 } (.create 42 "x") =
      .ok (none, { table := [], next_ino := 2 }) ∧
    SpooledFS.handle { table := [], next_ino := 2 } (.create 42 "x") ≠
      .ok (some (.err .ENOENT), { table := [], next_ino := 2 }) :=
  ⟨rfl, by simp [SpooledFS.handle, sfs_create, SpooledFS.create_file,
    SpooledFS.get_by_inode]⟩

/-- C7 (amended): for lookup, get_attributes, open, read, write and release
on an inode absent from the namespace, the handler resolves the inode before
touching any strategy, replies NoSuchEntry (ENOENT), and leaves the
namespace (hence every strategy) unchanged; a create whose parent inode is
absent also leaves the namespace unchanged, but sends no reply at all
instead of an error reply. -/
theorem C7_absent_inode (fs : SpooledFS) (ino : Nat) (name : String)
    (size : Option Nat) (off : Nat) (buf : List Byte)
    (h : fs.get_by_inode ino = none) :
    fs.handle (.lookup ino name) = .ok (some (.err .ENOENT), fs) ∧
    fs.handle (.getattr ino) = .ok (some (.err .ENOENT), fs) ∧
    fs.handle (.openFile ino) = .ok (some (.err .ENOENT), fs) ∧
    fs.handle (.read ino size off) = .ok (some (.err .ENOENT), fs) ∧
    fs.handle (.write ino buf off) = .ok (some (.err .ENOENT), fs) ∧
    fs.handle (.release ino) = .ok (some (.err .ENOENT), fs) ∧
    fs.handle (.create ino name) = .ok (none, fs) := by
  refine ⟨?_, ?_, ?_, ?_, ?_, ?_, ?_⟩ <;>
    simp [SpooledFS.handle, sfs_lookup, sfs_getattr, sfs_open, sfs_read,
      sfs_write, sfs_release, sfs_create, SpooledFS.create_file, h]

/-- Witness for C7 (amended) on an empty namespace and inode 42. -/
theorem C7_absent_inode_witness :
    SpooledFS.get_by_inode { table := [], next_ino := 2 } 42 = none ∧
    (SpooledFS.handle { table := [], next_ino := 2 } (.lookup 42 "x") =
      .ok (some (.err .ENOENT), { table := [], next_ino := 2 }) ∧
    SpooledFS.handle { table := [], next_ino := 2 } (.getattr 42) =
      .ok (some (.err .ENOENT), { table := [], next_ino := 2 }) ∧
    SpooledFS.handle { table := [], next_ino := 2 } (.openFile 42) =
      .ok (some (.err .ENOENT), { table := [], next_ino := 2 }) ∧
    SpooledFS.handle { table := [], next_ino := 2 } (.read 42 none 0) =
      .ok (some (.err .ENOENT), { table := [], next_ino := 2 }) ∧
    SpooledFS.handle { table := [], next_ino := 2 } (.write 42 [] 0) =
      .ok (some (.err .ENOENT), { table := [], next_ino := 2 }) ∧
    SpooledFS.handle { table := [], next_ino := 2 } (.release 42) =
      .ok (some (.err .ENOENT), { table := [], next_ino := 2 }) ∧
    SpooledFS.handle { table := [], next_ino := 2 } (.create 42 "x") =
      .ok (none, { table := [], next_ino := 2 })) :=
  ⟨rfl, C7_absent_inode { table := [], next_ino := 2 } 42 "x" none 0 [] rfl⟩

/-- C8 counterexample: opening an inode bound to a directory does not reply
NotAFile (no such reply exists anywhere in the code): the handler performs
the unchecked `(IOFile *)` cast on the directory entry and invokes open on
it, which is undefined behavior. -/
theorem C8_open_dir_unchecked :
    SpooledFS.handle { table := [(2, .dir [])], next_ino := 3 } (.openFile 2) =
      .error .undefinedBehavior := rfl

/-- C8 (amended): the open handler performs no kind check.  For an inode
resolving to a directory it does not reply NotAFile: it casts unchecked and
invokes open on the entry, which is undefined behavior; for an inode
resolving to a regular file it invokes the strategy open.  Strategy open is
thus reached for every resolved inode, not only regular files. -/
theorem C8_open_no_kind_check (fs : SpooledFS) (inoD inoF : Nat)
    (ch : List (String × Nat)) (f f1 : SpoolFile)
    (hD : fs.get_by_inode inoD = some (.dir ch))
    (hF : fs.get_by_inode inoF = some (.file f))
    (hopen : f.open' = .ok f1) :
    fs.handle (.openFile inoD) = .error .undefinedBehavior ∧
    fs.handle (.openFile inoF) =
      .ok (some .opened, fs.setEntry inoF (.file f1)) := by
  constructor
  · simp [SpooledFS.handle, sfs_open, hD]
  · simp [SpooledFS.handle, sfs_open, hF, hopen]

/-- Witness for C8 (amended): a namespace holding a directory at inode 2 and
an (empty, Memory-backed) regular file at inode 5. -/
theorem C8_open_no_kind_check_witness :
    SpooledFS.get_by_inode
      { table := [(2, .dir []), (5, .file (SpoolFile.construct 1024 []))],
        next_ino := 6 } 2 = some (.dir []) ∧
    SpooledFS.get_by_inode
      { table := [(2, .dir []), (5, .file (SpoolFile.construct 1024 []))],
        next_ino := 6 } 5 = some (.file (SpoolFile.construct 1024 [])) ∧
    (SpoolFile.construct 1024 []).open' = .ok (SpoolFile.construct 1024 []) ∧
    SpooledFS.handle
        { table := [(2, .dir []), (5, .file (SpoolFile.construct 1024 []))],
          next_ino := 6 } (.openFile 2) = .error .undefinedBehavior ∧
    SpooledFS.handle
        { table := [(2, .dir []), (5, .file (SpoolFile.construct 1024 []))],
          next_ino := 6 } (.openFile 5) =
      .ok (some .opened,
        SpooledFS.setEntry
          { table := [(2, .dir []), (5, .file (SpoolFile.construct 1024 []))],
            next_ino := 6 } 5 (.file (SpoolFile.construct 1024 []))) :=
  ⟨rfl, rfl, rfl,
    (C8_open_no_kind_check
      { table := [(2, .dir []), (5, .file (SpoolFile.construct 1024 []))],
        next_ino := 6 } 2 5 [] (SpoolFile.construct 1024 [])
      (SpoolFile.construct 1024 []) rfl rfl rfl).1,
    (C8_open_no_kind_check
      { table := [(2, .dir []), (5, .file (SpoolFile.construct 1024 []))],
        next_ino := 6 } 2 5 [] (SpoolFile.construct 1024 [])
      (SpoolFile.construct 1024 []) rfl rfl rfl).2⟩

/-- The operations a Disk strategy can serve between construction and
destruction. -/
inductive DiskOp where
  | openOp
  | closeOp
  | writeOp (buf : List Byte) (off : Nat)
  | readOp (size : Option Nat) (off : Nat)
  deriving DecidableEq, Repr

/-- One lifecycle operation on a Disk strategy (failing asserts abort). -/
def DiskFile.step (f : DiskFile) : DiskOp → Except Fatal DiskFile
  | .openOp => f.open'
  | .closeOp => f.close
  | .writeOp buf off => (f.write buf off).map fun r => r.1
  | .readOp size off => (f.read size off).map fun r => r.1

/-- Run a sequence of lifecycle operations on a Disk strategy. -/
def DiskFile.run (f : DiskFile) : List DiskOp → Except Fatal DiskFile
  | [] => .ok f
  | o :: ops =>
      match f.step o with
      | .error e => .error e
      | .ok f1 => f1.run ops

/-- No single operation touches the backing file's existence or its removal
count: only the destructor does. -/
theorem DiskFile.step_scratch (f : DiskFile) (o : DiskOp) (f1 : DiskFile)
    (h : f.step o = .ok f1) :
    f1.on_disk = f.on_disk ∧ f1.removals = f.removals := by
  cases o with
  | openOp =>
      simp only [DiskFile.step, DiskFile.open'] at h
      split_ifs at h with h1 h2
      · injection h with h
        subst h
        exact ⟨rfl, rfl⟩
  | closeOp =>
      simp only [DiskFile.step, DiskFile.close] at h
      split_ifs at h with h1
      injection h with h
      subst h
      exact ⟨rfl, rfl⟩
  | writeOp buf off =>
      simp only [DiskFile.step, DiskFile.write] at h
      split_ifs at h with h1
      · simp only [Except.map] at h
        injection h with h
        subst h
        exact ⟨(DiskFile.writeCore_spec f buf off).2.2.2.1,
          (DiskFile.writeCore_spec f buf off).2.2.2.2.1⟩
      · simp only [Except.map] at h
        injection h
  | readOp size off =>
      simp only [DiskFile.step, DiskFile.read] at h
      split_ifs at h with h1 h2
      · simp only [Except.map] at h
        injection h
      · simp only [Except.map] at h
        injection h with h
        subst h
        exact ⟨rfl, rfl⟩
      · simp only [Except.map] at h
        injection h

/-- Along any successful run, the backing file stays present and is never
removed. -/
theorem DiskFile.run_scratch (ops : List DiskOp) (f : DiskFile)
    (hd : f.on_disk = true) (hr : f.removals = 0) (f1 : DiskFile)
    (h : f.run ops = .ok f1) : f1.on_disk = true ∧ f1.removals = 0 := by
  induction ops generalizing f with
  | nil =>
      simp only [DiskFile.run] at h
      injection h with h
      subst h
      exact ⟨hd, hr⟩
  | cons o ops ih =>
      simp only [DiskFile.run] at h
      cases hs : f.step o with
      | error e => rw [hs] at h; cases h
      | ok fmid =>
          rw [hs] at h
          obtain ⟨h1, h2⟩ := DiskFile.step_scratch f o fmid hs
          exact ih fmid (h1.trans hd) (h2.trans hr) h

/-- C9: a Disk strategy's backing scratch file exists from construction,
through every successful open/close/read/write, until destruction; the
destructor removes it, exactly once, and afterwards it no longer exists. -/
theorem C9_disk_scratch_lifetime (buf : List Byte) (ops : List DiskOp)
    (f1 : DiskFile) (h : (DiskFile.construct buf).run ops = .ok f1) :
    (DiskFile.construct buf).on_disk = true ∧
    (DiskFile.construct buf).removals = 0 ∧
    f1.on_disk = true ∧ f1.removals = 0 ∧
    f1.destroy.on_disk = false ∧ f1.destroy.removals = 1 := by
  have hc := DiskFile.construct_spec buf
  have hd : (DiskFile.construct buf).on_disk = true := by rw [hc]
  have hr : (DiskFile.construct buf).removals = 0 := by rw [hc]
  obtain ⟨h1, h2⟩ := DiskFile.run_scratch ops _ hd hr f1 h
  refine ⟨hd, hr, h1, h2, rfl, ?_⟩
  simp [DiskFile.destroy, h1, h2]

/-- Witness for C9: a one-byte strategy taken through a full
open–write–read–close session. -/
theorem C9_disk_scratch_lifetime_witness :
    (DiskFile.construct [1]).run
        [.openOp, .writeOp [2] 1, .readOp none 0, .closeOp] =
      .ok { fh := false, content := [1, 2], st_size := 2,
            current_offset := 0, on_disk := true, removals := 0 } ∧
    ((DiskFile.construct [1]).on_disk = true ∧
     (DiskFile.construct [1]).removals = 0 ∧
     ({ fh := false, content := [1, 2], st_size := 2, current_offset := 0,
        on_disk := true, removals := 0 } : DiskFile).on_disk = true ∧
     ({ fh := false, content := [1, 2], st_size := 2, current_offset := 0,
        on_disk := true, removals := 0 } : DiskFile).removals = 0 ∧
     ({ fh := false, content := [1, 2], st_size := 2, current_offset := 0,
        on_disk := true, removals := 0 } : DiskFile).destroy.on_disk = false ∧
     ({ fh := false, content := [1, 2], st_size := 2, current_offset := 0,
        on_disk := true, removals := 0 } : DiskFile).destroy.removals = 1) :=
  ⟨rfl, C9_disk_scratch_lifetime [1]
    [.openOp, .writeOp [2] 1, .readOp none 0, .closeOp]
    { fh := false, content := [1, 2], st_size := 2, current_offset := 0,
      on_disk := true, removals := 0 } rfl⟩

/-- C10: when a write on an unspooled Memory-backed Spool strategy (its
sizes agreeing, as in every reachable state) promotes, the installed
replacement is a Disk strategy seeded with exactly the just-written content
and opened before installation; hence on the resulting Spool a close always
succeeds, every write succeeds, and the ALL-sentinel read succeeds — no
open-state assertion can fire. -/
theorem C10_promotion_installs_open_disk (s : SpoolFile) (m : MemoryFile)
    (buf : List Byte) (off : Nat) (s' : SpoolFile) (n : Nat)
    (hst : s.strategy = .mem m) (hms : m.st_size = m.blob.length)
    (hsp : s.spooled = false) (hw : s.write buf off = .ok (s', n))
    (hps : s'.spooled = true) :
    ∃ d, s'.strategy = .disk d ∧ d.fh = true ∧ d.on_disk = true ∧
      d.content = fileWrite m.blob off buf ∧
      d.st_size = d.content.length ∧
      (∃ s2, s'.close = .ok s2) ∧
      (∀ b2 o2, ∃ s3 n2, s'.write b2 o2 = .ok (s3, n2)) ∧
      (∃ s4 v, s'.read none 0 = .ok (s4, v) ∧ v.buf = d.content) := by
  rw [SpoolFile.write_mem s m buf off hst] at hw
  by_cases hc : s.spooled = false ∧ s.spool_size < (m.write buf off).1.st_size
  · rw [if_pos hc] at hw
    injection hw with hw
    injection hw with e1 e2
    subst e1
    refine ⟨_, rfl, rfl, rfl, MemoryFile.write_blob m buf off, rfl, ?_, ?_, ?_⟩
    · exact ⟨_, rfl⟩
    · intro b2 o2
      exact ⟨_, _, SpoolFile.write_disk _ _ b2 o2 rfl rfl rfl⟩
    · have hne : (m.write buf off).1.blob ≠ [] := by
        have hl := MemoryFile.write_st_size m buf off hms
        apply List.ne_nil_of_length_pos
        have hlt : s.spool_size < (m.write buf off).1.st_size := hc.2
        rw [MemoryFile.write_blob m buf off]
        rw [hl] at hlt
        omega
      have hra : Strategy.readableAll (.disk
          { fh := true, content := (m.write buf off).1.blob,
            st_size := (m.write buf off).1.blob.length,
            current_offset := 0, on_disk := true, removals := 0 }) :=
        ⟨rfl, rfl, hne⟩
      obtain ⟨s4, v, he, hb, _⟩ :=
        SpoolFile.read_all_delegate
          { spool_size := s.spool_size,
            strategy := .disk
              { fh := true, content := (m.write buf off).1.blob,
                st_size := (m.write buf off).1.blob.length,
                current_offset := 0, on_disk := true, removals := 0 },
            spooled := true, st_size := s.st_size } 0 hra
      exact ⟨s4, v, he, hb⟩
  · rw [if_neg hc] at hw
    injection hw with hw
    injection hw with e1 e2
    subst e1
    simp [hsp] at hps

/-- Witness for C10: an empty Spool strategy with threshold 3, promoted by a
single four-byte write. -/
theorem C10_promotion_witness :
    ∃ d,
      ({ spool_size := 3,
         strategy := .disk
           { fh := true, content := [1, 2, 3, 4], st_size := 4,
             current_offset := 0, on_disk := true, removals := 0 },
         spooled := true, st_size := 0 } : SpoolFile).strategy = .disk d ∧
      d.fh = true ∧ d.on_disk = true ∧
      d.content = fileWrite ([] : List Byte) 0 [1, 2, 3, 4] ∧
      d.st_size = d.content.length ∧
      (∃ s2,
        ({ spool_size := 3,
           strategy := .disk
             { fh := true, content := [1, 2, 3, 4], st_size := 4,
               current_offset := 0, on_disk := true, removals := 0 },
           spooled := true, st_size := 0 } : SpoolFile).close = .ok s2) ∧
      (∀ b2 o2, ∃ s3 n2,
        ({ spool_size := 3,
           strategy := .disk
             { fh := true, content := [1, 2, 3, 4], st_size := 4,
               current_offset := 0, on_disk := true, removals := 0 },
           spooled := true, st_size := 0 } : SpoolFile).write b2 o2 =
          .ok (s3, n2)) ∧
      (∃ s4 v,
        ({ spool_size := 3,
           strategy := .disk
             { fh := true, content := [1, 2, 3, 4], st_size := 4,
               current_offset := 0, on_disk := true, removals := 0 },
           spooled := true, st_size := 0 } : SpoolFile).read none 0 =
          .ok (s4, v) ∧ v.buf = d.content) :=
  C10_promotion_installs_open_disk
    (SpoolFile.construct 3 []) { blob := [], st_size := 0 } [1, 2, 3, 4] 0
    { spool_size := 3,
      strategy := .disk
        { fh := true, content := [1, 2, 3, 4], st_size := 4,
          current_offset := 0, on_disk := true, removals := 0 },
      spooled := true, st_size := 0 } 4 rfl rfl rfl rfl rfl

/-- Witness for C5: an open three-byte Disk strategy written past its end. -/
theorem C5_disk_write_accounting_witness :
    ({ fh := true, content := [1, 2, 3], st_size := 3, current_offset := 0,
       on_disk := true, removals := 0 } : DiskFile).fh = true ∧
    (∃ d' n,
      ({ fh := true, content := [1, 2, 3], st_size := 3, current_offset := 0,
         on_disk := true, removals := 0 } : DiskFile).write [9, 9] 2 =
        .ok (d', n) ∧ n = [9, 9].length ∧
      d'.st_size = max 3 (2 + [9, 9].length) ∧
      (2 < 3 ∧ 2 + [9, 9].length ≤ 3 → d'.st_size = 3) ∧
      (¬(2 < 3 ∧ 2 + [9, 9].length ≤ 3) →
        d'.st_size = 3 + (2 + [9, 9].length - 3)) ∧
      d'.current_offset = 2 + [9, 9].length) :=
  ⟨rfl, C5_disk_write_accounting
    { fh := true, content := [1, 2, 3], st_size := 3, current_offset := 0,
      on_disk := true, removals := 0 } [9, 9] 2 rfl⟩

end sfs
